import Mathlib

/-!
# Verification of the task-runner lifecycle manager

Shallow embedding of `src/index.ts`: the task registry, the bounded
log buffer with oldest-first eviction (`pushLog`), and the nine
protocol operations (`task_start`, `task_status`, `task_list`,
`task_logs`, `task_write`, `task_signal`, `task_stop`, `task_wait`,
`task_prune`).  Asynchronous events (output arrival, process exit,
timer races) are modelled as explicit parameters describing which
event occurred, following the single-threaded interleaving model of
the source: each handler runs to completion between suspension points.
-/

set_option autoImplicit false

namespace TaskRunner

/-- States of `type TaskState = "running" | "exited"`. -/
inductive TaskState where
  | running
  | exited
deriving Repr, DecidableEq

/-- Stream origin of a log item: `"stdout" | "stderr"`. -/
inductive StreamTag where
  | stdout
  | stderr
deriving Repr, DecidableEq

/-- Mirror of `type LogItem`: timestamp `t`, stream origin, raw text. -/
structure LogItem where
  t : Nat
  stream : StreamTag
  text : String
deriving Repr, DecidableEq

/-- The mutable fields of `type Task`.  The process handle `proc` is
represented only through its observable `pid`; waiters (callbacks
`(t: Task) => void`) are represented by opaque waiter identifiers, so
that invoking a waiter can be recorded as a `(waiter id, snapshot)`
pair. -/
structure Task where
  id : String
  name : Option String
  command : String
  args : List String
  cwd : Option String
  env : Option (List (String × String))
  createdAt : Nat
  pid : Nat
  state : TaskState
  exitCode : Option Int
  signal : Option String
  maxLogBytes : Int
  logBytes : Int
  logs : List LogItem
  waiters : List Nat
deriving Repr, DecidableEq

/-- Constant `DEFAULT_MAX_LOG_BYTES = 1024 * 1024`. -/
def DEFAULT_MAX_LOG_BYTES : Int := 1024 * 1024

/-- The byte contribution of one log item:
`Buffer.byteLength(text, "utf8") + 16`. -/
def itemBytes (i : LogItem) : Int :=
  (i.text.utf8ByteSize : Int) + 16

/-- Sum of `itemBytes` over a list of retained items. -/
def bytesOf (logs : List LogItem) : Int :=
  (logs.map itemBytes).sum

/-- The eviction loop of `pushLog`:
`while (task.logBytes > task.maxLogBytes && task.logs.length) { shift; subtract }`,
returning the retained items and the final byte counter. -/
def evictLoop (maxB : Int) : List LogItem → Int → List LogItem × Int
  | [], bytes => ([], bytes)
  | x :: xs, bytes =>
    if maxB < bytes then evictLoop maxB xs (bytes - itemBytes x)
    else (x :: xs, bytes)

/-- Embedding of `function pushLog(task, stream, chunk)`: append the chunk (with its
creation timestamp `now` standing for `Date.now()`), add its byte
contribution, then run the eviction loop. -/
def pushLog (t : Task) (stream : StreamTag) (now : Nat) (text : String) : Task :=
  let item : LogItem := ⟨now, stream, text⟩
  let r := evictLoop t.maxLogBytes (t.logs ++ [item]) (t.logBytes + itemBytes item)
  { t with logs := r.1, logBytes := r.2 }

/-- A sequence of output chunks, each `(stream, Date.now(), text)`. -/
def Chunk : Type := StreamTag × Nat × String

/-- The log items a chunk sequence creates, in arrival order. -/
def itemsOf (chunks : List Chunk) : List LogItem :=
  chunks.map (fun c => ⟨c.2.1, c.1, c.2.2⟩)

/-- Folding `pushLog` over a sequence of arriving chunks. -/
def appendAll (t : Task) (chunks : List Chunk) : Task :=
  chunks.foldl (fun acc c => pushLog acc c.1 c.2.1 c.2.2) t

theorem bytesOf_cons (i : LogItem) (logs : List LogItem) :
    bytesOf (i :: logs) = itemBytes i + bytesOf logs := by
  simp [bytesOf]

theorem evictLoop_sum (maxB : Int) :
    ∀ (logs : List LogItem) (bytes : Int), bytes = bytesOf logs →
      (evictLoop maxB logs bytes).2 = bytesOf (evictLoop maxB logs bytes).1 := by
  intro logs
  induction logs with
  | nil =>
    intro bytes h
    simpa [evictLoop, bytesOf] using h
  | cons x xs ih =>
    intro bytes h
    by_cases hlt : maxB < bytes
    · have : bytes - itemBytes x = bytesOf xs := by
        rw [h, bytesOf_cons]; ring
      simpa [evictLoop, hlt] using ih (bytes - itemBytes x) this
    · simpa [evictLoop, hlt] using h

theorem evictLoop_le_or_nil (maxB : Int) :
    ∀ (logs : List LogItem) (bytes : Int),
      (evictLoop maxB logs bytes).2 ≤ maxB ∨ (evictLoop maxB logs bytes).1 = [] := by
  intro logs
  induction logs with
  | nil => intro bytes; right; simp [evictLoop]
  | cons x xs ih =>
    intro bytes
    by_cases hlt : maxB < bytes
    · simpa [evictLoop, hlt] using ih (bytes - itemBytes x)
    · left; simpa [evictLoop, hlt] using le_of_not_lt hlt

theorem evictLoop_suffix (maxB : Int) :
    ∀ (logs : List LogItem) (bytes : Int),
      (evictLoop maxB logs bytes).1.IsSuffix logs := by
  intro logs
  induction logs with
  | nil => intro bytes; simp [evictLoop]
  | cons x xs ih =>
    intro bytes
    by_cases hlt : maxB < bytes
    · have h := ih (bytes - itemBytes x)
      simpa [evictLoop, hlt] using h.trans (List.suffix_cons x xs)
    · simp [evictLoop, hlt]

theorem pushLog_sum (t : Task) (stream : StreamTag) (now : Nat) (text : String)
    (h : t.logBytes = bytesOf t.logs) :
    (pushLog t stream now text).logBytes = bytesOf (pushLog t stream now text).logs := by
  have hb : t.logBytes + itemBytes ⟨now, stream, text⟩ =
      bytesOf (t.logs ++ [⟨now, stream, text⟩]) := by
    simp [h, bytesOf]
  simpa [pushLog] using
    evictLoop_sum t.maxLogBytes (t.logs ++ [⟨now, stream, text⟩])
      (t.logBytes + itemBytes ⟨now, stream, text⟩) hb

theorem pushLog_maxLogBytes (t : Task) (stream : StreamTag) (now : Nat) (text : String) :
    (pushLog t stream now text).maxLogBytes = t.maxLogBytes := rfl

theorem appendAll_sum (t : Task) (h : t.logBytes = bytesOf t.logs) :
    ∀ chunks : List Chunk,
      (appendAll t chunks).logBytes = bytesOf (appendAll t chunks).logs := by
  intro chunks
  induction chunks generalizing t with
  | nil => simpa [appendAll] using h
  | cons c cs ih =>
    have h1 := pushLog_sum t c.1 c.2.1 c.2.2 h
    simpa [appendAll] using ih (pushLog t c.1 c.2.1 c.2.2) h1

theorem pushLog_le_or_nil (t : Task) (stream : StreamTag) (now : Nat) (text : String) :
    (pushLog t stream now text).logBytes ≤ t.maxLogBytes ∨
      (pushLog t stream now text).logs = [] := by
  simpa [pushLog] using
    evictLoop_le_or_nil t.maxLogBytes (t.logs ++ [⟨now, stream, text⟩])
      (t.logBytes + itemBytes ⟨now, stream, text⟩)

theorem pushLog_suffix (t : Task) (stream : StreamTag) (now : Nat) (text : String) :
    (pushLog t stream now text).logs.IsSuffix (t.logs ++ [⟨now, stream, text⟩]) := by
  simpa [pushLog] using
    evictLoop_suffix t.maxLogBytes (t.logs ++ [⟨now, stream, text⟩])
      (t.logBytes + itemBytes ⟨now, stream, text⟩)

theorem suffix_append_same {α : Type} {l₁ l₂ l₃ : List α} (h : l₁.IsSuffix l₂) :
    (l₁ ++ l₃).IsSuffix (l₂ ++ l₃) := by
  obtain ⟨u, rfl⟩ := h
  exact ⟨u, by simp⟩

theorem appendAll_suffix (t : Task) :
    ∀ chunks : List Chunk,
      (appendAll t chunks).logs.IsSuffix (t.logs ++ itemsOf chunks) := by
  intro chunks
  induction chunks generalizing t with
  | nil => simp [appendAll, itemsOf]
  | cons c cs ih =>
    have h1 := pushLog_suffix t c.1 c.2.1 c.2.2
    have h2 := ih (pushLog t c.1 c.2.1 c.2.2)
    have h3 : ((pushLog t c.1 c.2.1 c.2.2).logs ++ itemsOf cs).IsSuffix
        ((t.logs ++ [⟨c.2.1, c.1, c.2.2⟩]) ++ itemsOf cs) := suffix_append_same h1
    have : (appendAll (pushLog t c.1 c.2.1 c.2.2) cs).logs.IsSuffix
        ((t.logs ++ [⟨c.2.1, c.1, c.2.2⟩]) ++ itemsOf cs) := h2.trans h3
    simpa [appendAll, itemsOf, List.append_assoc] using this

/-- The shape returned by `function summary(t)`. -/
structure Summary where
  id : String
  name : Option String
  command : String
  args : List String
  cwd : Option String
  pid : Nat
  state : TaskState
  exitCode : Option Int
  signal : Option String
  createdAt : Nat
  logBytes : Int
  maxLogBytes : Int
deriving Repr, DecidableEq

/-- Embedding of `function summary(t)`: the task's public snapshot (`name ?? null`
and `cwd ?? null` are the `Option` values themselves). -/
def summary (t : Task) : Summary :=
  ⟨t.id, t.name, t.command, t.args, t.cwd, t.pid, t.state, t.exitCode,
    t.signal, t.createdAt, t.logBytes, t.maxLogBytes⟩

/-- The `proc.on("exit", (code, sig) => ...)` handler: set state to
`exited`, record `code` and `sig ?? null`, splice out all waiters and
invoke each with the (mutated) task.  Returns the updated task and the
list of performed waiter invocations `(waiter id, task snapshot)`. -/
def onExit (t : Task) (code : Option Int) (sig : Option String) :
    Task × List (Nat × Task) :=
  let t1 := { t with state := .exited, exitCode := code, signal := sig,
                     waiters := [] }
  (t1, t.waiters.map (fun w => (w, t1)))

/-- One asynchronous per-task event: output-chunk arrival on a stream,
the `proc.on("error", ...)` handler (which appends a synthesized
`Process error: ...` diagnostic line to stderr), or the exit event. -/
inductive Event where
  | output (stream : StreamTag) (now : Nat) (text : String)
  | procError (now : Nat) (msg : String)
  | exit (code : Option Int) (sig : Option String)

/-- The effect of one asynchronous event on the task record. -/
def applyEvent (t : Task) : Event → Task
  | .output s n x => pushLog t s n x
  | .procError n m => pushLog t .stderr n ("Process error: " ++ m ++ "\n")
  | .exit c s => (onExit t c s).1

/-- The registry `const tasks = new Map<string, Task>()`, as an insertion-ordered
association list.  `Map.set` replaces in place on an existing key and
appends on a fresh key, which `setTask` mirrors. -/
abbrev Registry := List (String × Task)

/-- Lookup `tasks.get(id)`. -/
def lookupTask : Registry → String → Option Task
  | [], _ => none
  | (k, t) :: rest, id => if k = id then some t else lookupTask rest id

/-- Update `tasks.set(id, task)`. -/
def setTask : Registry → String → Task → Registry
  | [], id, t => [(id, t)]
  | (k, u) :: rest, id, t =>
    if k = id then (id, t) :: rest else (k, u) :: setTask rest id t

/-- The identifiers currently registered, in iteration order. -/
def regIds (reg : Registry) : List String := reg.map Prod.fst

/-- The message of the error thrown by `getTask` for an absent id. -/
def notFoundMsg (id : String) : String := "Task not found: " ++ id

/-- Embedding of `function getTask(id)`: look up or throw `Task not found`. -/
def getTask (reg : Registry) (id : String) : Except String Task :=
  match lookupTask reg id with
  | none => .error (notFoundMsg id)
  | some t => .ok t

/-- Result of `task_start`: `{ id, pid: task.pid, state: task.state }`. -/
structure StartResult where
  id : String
  pid : Nat
  state : TaskState
deriving Repr, DecidableEq

/-- The `task_start` handler.  `id` stands for the fresh `randomUUID()`,
`now` for `Date.now()`, and `spawnPid` for `proc.pid` after the spawn
(`none` when no pid was obtained, in which case the handler throws
before registering anything). -/
def task_start (reg : Registry) (command : String) (args : List String)
    (cwd : Option String) (env : Option (List (String × String)))
    (name : Option String) (maxLogBytes : Option Int)
    (id : String) (now : Nat) (spawnPid : Option Nat) :
    Registry × Except String StartResult :=
  match spawnPid with
  | none => (reg, .error ("Failed to start process (no pid)"))
  | some pid =>
    let task : Task :=
      { id := id, name := name, command := command, args := args, cwd := cwd,
        env := env, createdAt := now, pid := pid, state := .running,
        exitCode := none, signal := none,
        maxLogBytes := maxLogBytes.getD DEFAULT_MAX_LOG_BYTES,
        logBytes := 0, logs := [], waiters := [] }
    (setTask reg id task, .ok ⟨id, pid, .running⟩)

/-- The `task_status` handler: `okJson(summary(getTask(id)))`. -/
def task_status (reg : Registry) (id : String) : Except String Summary :=
  (getTask reg id).map summary

/-- The `task_list` handler: `Array.from(tasks.values()).map(summary)`. -/
def task_list (reg : Registry) : List Summary :=
  reg.map (fun p => summary p.2)

/-- The wire name of a stream tag. -/
def streamName : StreamTag → String
  | .stdout => "stdout"
  | .stderr => "stderr"

/-- Left-pad a decimal rendering with zeros to width `w`. -/
def padZeros (w : Nat) (n : Nat) : String :=
  let s := toString n
  String.mk (List.replicate (w - s.length) '0') ++ s

/-- Civil date (year, month, day) from a count of days since
1970-01-01, for the proleptic Gregorian calendar (days ≥ 0). -/
def civilFromDays (z : Nat) : Nat × Nat × Nat :=
  let z' := z + 719468
  let era := z' / 146097
  let doe := z' % 146097
  let yoe := (doe - doe / 1460 + doe / 36524 - doe / 146097) / 365
  let y := yoe + era * 400
  let doy := doe - (365 * yoe + yoe / 4 - yoe / 100)
  let mp := (5 * doy + 2) / 153
  let d := doy - (153 * mp + 2) / 5 + 1
  let m := if mp < 10 then mp + 3 else mp - 9
  (if m ≤ 2 then y + 1 else y, m, d)

/-- Rendering `new Date(ms).toISOString()` for a non-negative epoch
millisecond count: `YYYY-MM-DDTHH:MM:SS.sssZ`. -/
def isoString (ms : Nat) : String :=
  let days := ms / 86400000
  let rem := ms % 86400000
  let c := civilFromDays days
  padZeros 4 c.1 ++ "-" ++ padZeros 2 c.2.1 ++ "-" ++ padZeros 2 c.2.2 ++
    "T" ++ padZeros 2 (rem / 3600000) ++ ":" ++
    padZeros 2 (rem % 3600000 / 60000) ++ ":" ++
    padZeros 2 (rem % 60000 / 1000) ++ "." ++ padZeros 3 (rem % 1000) ++ "Z"

/-- Embedding of `function formatLogs(items)`: render each item as
`<ISO timestamp> [<stream>] <text>` and join with no separator. -/
def formatLogs (items : List LogItem) : String :=
  String.join (items.map
    (fun i => isoString i.t ++ " [" ++ streamName i.stream ++ "] " ++ i.text))

/-- The selection step of the `task_logs` handler:
`if (tail !== undefined) items = items.slice(Math.max(0, items.length - tail));
else if (offset !== undefined) items = items.slice(offset);` -/
def selectLogs (logs : List LogItem) (offset tail : Option Nat) : List LogItem :=
  match tail with
  | some n => logs.drop (logs.length - n)
  | none =>
    match offset with
    | some off => logs.drop off
    | none => logs

/-- The JSON body returned by the `task_logs` handler. -/
structure LogsResult where
  id : String
  state : TaskState
  pid : Nat
  exitCode : Option Int
  signal : Option String
  logItemCount : Nat
  returnedCount : Nat
  text : String
deriving Repr, DecidableEq

/-- The `task_logs` handler on a resolved task. -/
def task_logs (t : Task) (offset tail : Option Nat)
    (includeTimestamps : Option Bool) : LogsResult :=
  let ts := includeTimestamps.getD true
  let items := selectLogs t.logs offset tail
  let text := if ts then formatLogs items
    else String.join (items.map
      (fun i => "[" ++ streamName i.stream ++ "] " ++ i.text))
  ⟨t.id, t.state, t.pid, t.exitCode, t.signal, t.logs.length, items.length, text⟩

/-- Registry-level `task_logs`: `getTask` then the handler body. -/
def task_logs_reg (reg : Registry) (id : String) (offset tail : Option Nat)
    (includeTimestamps : Option Bool) : Except String LogsResult :=
  (getTask reg id).map (fun t => task_logs t offset tail includeTimestamps)

/-- The `task_write` handler on a resolved task.  Returns the payloads
actually passed to `proc.stdin.write` together with the protocol
result; `writeErr` is the error the asynchronous write completion
reported, if any. -/
def task_write (t : Task) (data : String) (addNewline : Option Bool)
    (writeErr : Option String) : List String × Except String Unit :=
  if t.state = .running then
    let payload := if addNewline.getD false then data ++ "\n" else data
    ([payload], match writeErr with
      | none => .ok ()
      | some e => .error e)
  else ([], .error ("Task is not running"))

/-- Registry-level `task_write`. -/
def task_write_reg (reg : Registry) (id : String) (data : String)
    (addNewline : Option Bool) (writeErr : Option String) :
    List String × Except String Unit :=
  match lookupTask reg id with
  | none => ([], .error (notFoundMsg id))
  | some t => task_write t data addNewline writeErr

/-- Result of the `task_signal` handler: either the non-error
`"not running"` text or the JSON `{ ok, id, pid, signal }`. -/
inductive SignalResult where
  | notRunning
  | sent (ok : Bool) (id : String) (pid : Nat) (signal : String)
deriving Repr, DecidableEq

/-- The `task_signal` handler on a resolved task.  `killOk` is the
boolean returned by `proc.kill(signal)`; the second component lists
the signals actually forwarded to the process. -/
def task_signal (t : Task) (signal : String) (killOk : Bool) :
    SignalResult × List String :=
  if t.state = .running then (.sent killOk t.id t.pid signal, [signal])
  else (.notRunning, [])

/-- Registry-level `task_signal`. -/
def task_signal_reg (reg : Registry) (id : String) (signal : String)
    (killOk : Bool) : Except String (SignalResult × List String) :=
  (getTask reg id).map (fun t => task_signal t signal killOk)

/-- How the first race in `task_stop` (exit waiter vs `timeoutMs`
timer) resolved: the exit event won; the timer won but the exit event
had fired by the time of the `t.state === "running"` check; or the
timer won with the task still running at that check. -/
inductive TermRace where
  | exitWon (code : Option Int) (sig : Option String)
  | timerWonExited (code : Option Int) (sig : Option String)
  | timerWonRunning
deriving Repr, DecidableEq

/-- What the `task_stop` handler did: the task record afterwards, the
signals sent via `proc.kill` in order, the timer durations armed in
order, and the returned summary. -/
structure StopOutcome where
  task : Task
  signalsSent : List String
  timersArmed : List Nat
  result : Summary
deriving Repr, DecidableEq

/-- The `task_stop` handler on a resolved task.  `wid` stands for the
fresh resolver the first race pushes onto `t.waiters` (and `wid + 1`
for the second race's); `killExit` tells whether the exit event
arrived within the fixed 1000 ms grace race after `SIGKILL`. -/
def task_stop (t : Task) (timeoutMs : Option Nat) (wid : Nat)
    (termRace : TermRace) (killExit : Option (Option Int × Option String)) :
    StopOutcome :=
  if t.state = .running then
    let t1 := { t with waiters := t.waiters ++ [wid] }
    let timeout := timeoutMs.getD 5000
    match termRace with
    | .exitWon c s =>
      let t2 := (onExit t1 c s).1
      ⟨t2, ["SIGTERM"], [timeout], summary t2⟩
    | .timerWonExited c s =>
      let t2 := (onExit t1 c s).1
      ⟨t2, ["SIGTERM"], [timeout], summary t2⟩
    | .timerWonRunning =>
      let t2 := { t1 with waiters := t1.waiters ++ [wid + 1] }
      match killExit with
      | some cs =>
        let t3 := (onExit t2 cs.1 cs.2).1
        ⟨t3, ["SIGTERM", "SIGKILL"], [timeout, 1000], summary t3⟩
      | none => ⟨t2, ["SIGTERM", "SIGKILL"], [timeout, 1000], summary t2⟩
  else ⟨t, [], [], summary t⟩

/-- Registry-level `task_stop`: lookup, run the handler, and store the
(mutated-in-place) task record back under the same id. -/
def task_stop_reg (reg : Registry) (id : String) (timeoutMs : Option Nat)
    (wid : Nat) (termRace : TermRace)
    (killExit : Option (Option Int × Option String)) :
    Registry × Except String StopOutcome :=
  match lookupTask reg id with
  | none => (reg, .error (notFoundMsg id))
  | some t =>
    let o := task_stop t timeoutMs wid termRace killExit
    (setTask reg id o.task, .ok o)

/-- How the race in `task_wait` resolved: the exit event fired (before
the timer, when one was set), or the timer fired first — `timedOut`
with no `timeoutMs` set means the indefinite wait is still pending. -/
inductive WaitRace where
  | exitEvt (code : Option Int) (sig : Option String)
  | timedOut
deriving Repr, DecidableEq

/-- The JSON body returned by the `task_wait` handler: a summary, or
the distinct `{ id, state, pid, timeout: true }` marker. -/
inductive WaitResponse where
  | summary (s : Summary)
  | timeoutMarker (id : String) (state : TaskState) (pid : Nat)
deriving Repr, DecidableEq

/-- The `task_wait` handler on a resolved task: returns the task record
afterwards and the response (`none` when the indefinite wait has not
resolved).  `wid` stands for the resolver pushed onto `t.waiters`. -/
def task_wait (t : Task) (timeoutMs : Option Nat) (wid : Nat)
    (race : WaitRace) : Task × Option WaitResponse :=
  if t.state = .exited then (t, some (.summary (summary t)))
  else
    let t1 := { t with waiters := t.waiters ++ [wid] }
    match race with
    | .exitEvt c s =>
      let t2 := (onExit t1 c s).1
      (t2, some (.summary (summary t2)))
    | .timedOut =>
      match timeoutMs with
      | none => (t1, none)
      | some _ => (t1, some (.timeoutMarker t.id t.state t.pid))

/-- Registry-level `task_wait`. -/
def task_wait_reg (reg : Registry) (id : String) (timeoutMs : Option Nat)
    (wid : Nat) (race : WaitRace) :
    Registry × Except String (Option WaitResponse) :=
  match lookupTask reg id with
  | none => (reg, .error (notFoundMsg id))
  | some t =>
    let o := task_wait t timeoutMs wid race
    (setTask reg id o.1, .ok o.2)

/-- The deletion test of the `task_prune` loop:
`t.state === "exited" || includeRunning` (an absent `includeRunning`
is falsy). -/
def pruneRemoves (includeRunning : Option Bool) (t : Task) : Bool :=
  t.state = TaskState.exited ∨ includeRunning.getD false = true

/-- The JSON body returned by `task_prune`, plus the signals the
handler sent to processes (it sends none: removal never kills). -/
structure PruneResult where
  removed : Nat
  remaining : Nat
  signalsSent : List (Nat × String)
deriving Repr, DecidableEq

/-- The `task_prune` handler: delete every entry passing the test,
counting deletions; `remaining` is `tasks.size` afterwards. -/
def task_prune (reg : Registry) (includeRunning : Option Bool) :
    Registry × PruneResult :=
  let keep := reg.filter (fun p => ! pruneRemoves includeRunning p.2)
  let removed := reg.countP (fun p => pruneRemoves includeRunning p.2)
  (keep, ⟨removed, keep.length, []⟩)

/-! ## Auxiliary lemmas -/

theorem applyEvent_state_exited (t : Task) (e : Event) (h : t.state = .exited) :
    (applyEvent t e).state = .exited := by
  cases e <;> simp [applyEvent, pushLog, onExit, h]

theorem foldl_applyEvent_exited (es : List Event) :
    ∀ t : Task, t.state = .exited → (es.foldl applyEvent t).state = .exited := by
  induction es with
  | nil => intro t h; simpa using h
  | cons e es ih =>
    intro t h
    simpa using ih (applyEvent t e) (applyEvent_state_exited t e h)

theorem lookupTask_setTask_self (reg : Registry) (id : String) (t : Task) :
    lookupTask (setTask reg id t) id = some t := by
  induction reg with
  | nil => simp [setTask, lookupTask]
  | cons p rest ih =>
    obtain ⟨k, u⟩ := p
    by_cases hk : k = id
    · simp [setTask, lookupTask, hk]
    · simp [setTask, lookupTask, hk, ih]

theorem regIds_setTask (reg : Registry) (id : String) (t u : Task)
    (h : lookupTask reg id = some u) :
    regIds (setTask reg id t) = regIds reg := by
  induction reg with
  | nil => simp [lookupTask] at h
  | cons p rest ih =>
    obtain ⟨k, v⟩ := p
    by_cases hk : k = id
    · simp [setTask, regIds, hk]
    · simp only [lookupTask, if_neg hk] at h
      have h2 := ih h
      simp only [regIds] at h2
      simp [setTask, regIds, hk, h2]

theorem countP_add_length_filter_not {α : Type} (p : α → Bool) (l : List α) :
    l.countP p + (l.filter (fun a => ! p a)).length = l.length := by
  induction l with
  | nil => simp
  | cons x xs ih =>
    by_cases h : p x = true <;>
      simp [List.countP_cons, h, ih] <;> omega

/-- A sample registered task used by the concrete witnesses. -/
def sampleTask : Task :=
  { id := "t1", name := none, command := "sleep", args := ["60"], cwd := none,
    env := none, createdAt := 0, pid := 42, state := .running,
    exitCode := none, signal := none, maxLogBytes := 1024, logBytes := 0,
    logs := [], waiters := [7, 8] }

/-- A sample exited task used by the concrete witnesses. -/
def doneTask : Task :=
  { id := "t2", name := some ("build"), command := "make", args := [],
    cwd := none, env := none, createdAt := 5, pid := 43, state := .exited,
    exitCode := some 0, signal := none, maxLogBytes := 2048, logBytes := 0,
    logs := [], waiters := [] }

/-! ## Claim theorems -/

/-- C1: for every task whose byte counter matches its retained items,
any sequence of `pushLog` appends (with interleaved evictions) keeps
`logBytes` equal to the sum of `utf8 byte length + 16` over the
retained items, and each eviction step subtracts exactly the evicted
item's contribution. -/
theorem pushLog_logBytes_accounting (t : Task)
    (h : t.logBytes = bytesOf t.logs) :
    (∀ chunks : List Chunk,
      (appendAll t chunks).logBytes = bytesOf (appendAll t chunks).logs) ∧
    (∀ (x : LogItem) (xs : List LogItem) (bytes : Int),
      t.maxLogBytes < bytes →
      evictLoop t.maxLogBytes (x :: xs) bytes =
        evictLoop t.maxLogBytes xs (bytes - itemBytes x)) := by
  refine ⟨appendAll_sum t h, ?_⟩
  intro x xs bytes hlt
  simp [evictLoop, hlt]

/-- Witness for C1 at a concrete task and chunk sequence. -/
theorem pushLog_logBytes_accounting_witness :
    (appendAll sampleTask [(.stdout, 1, "hello"), (.stderr, 2, "oops")]).logBytes =
      bytesOf (appendAll sampleTask
        [(.stdout, 1, "hello"), (.stderr, 2, "oops")]).logs :=
  (pushLog_logBytes_accounting sampleTask (by decide)).1
    [(.stdout, 1, "hello"), (.stderr, 2, "oops")]

/-- C2: every `pushLog` call leaves `logBytes ≤ maxLogBytes` or an
empty buffer, and after any sequence of appends the retained items are
a suffix of the full appended sequence (eviction is strictly from the
oldest end). -/
theorem pushLog_budget_and_suffix (t : Task) (stream : StreamTag) (now : Nat)
    (text : String) (chunks : List Chunk) :
    ((pushLog t stream now text).logBytes ≤ t.maxLogBytes ∨
      (pushLog t stream now text).logs = []) ∧
    (appendAll t chunks).logs.IsSuffix (t.logs ++ itemsOf chunks) :=
  ⟨pushLog_le_or_nil t stream now text, appendAll_suffix t chunks⟩

/-- C3: the exit handler flips state to `exited` (and no later event
reverts it), records the reported code and signal verbatim, clears the
waiter list, and invokes exactly the waiters queued at that moment,
each exactly once, all with the same final snapshot — hence with
identical summaries; a hypothetical second firing would find no
waiters left to invoke. -/
theorem exit_event_spec (t : Task) (code : Option Int) (sig : Option String) :
    ((onExit t code sig).1.state = .exited) ∧
    ((onExit t code sig).1.exitCode = code) ∧
    ((onExit t code sig).1.signal = sig) ∧
    ((onExit t code sig).1.waiters = []) ∧
    ((onExit t code sig).2 =
      t.waiters.map (fun w => (w, (onExit t code sig).1))) ∧
    ((onExit t code sig).2.map Prod.fst = t.waiters) ∧
    ((onExit t code sig).2.map (fun c => summary c.2) =
      t.waiters.map (fun _ => summary (onExit t code sig).1)) ∧
    (∀ c' s', (onExit (onExit t code sig).1 c' s').2 = []) ∧
    (∀ es : List Event,
      (es.foldl applyEvent (onExit t code sig).1).state = .exited) := by
  refine ⟨rfl, rfl, rfl, rfl, rfl, by simp [onExit, Function.comp_def],
    by simp [onExit, Function.comp_def, List.map_const], ?_, ?_⟩
  · intro c' s'; simp [onExit]
  · intro es
    exact foldl_applyEvent_exited es _ rfl

/-- C4: on a registered task, `stop` never errors and never removes
the task; on an exited task it answers the current summary with no
signal and no timer; on a running task it sends `SIGTERM` first,
arming the `timeoutMs` timer (default 5000 ms), sends `SIGKILL`
exactly when the task is still running after that race, arming the
fixed 1000 ms grace timer; and in all cases it resolves with the
summary of the task's current record. -/
theorem stop_spec (reg : Registry) (id : String) (t : Task)
    (timeoutMs : Option Nat) (wid : Nat) (termRace : TermRace)
    (killExit : Option (Option Int × Option String))
    (hreg : lookupTask reg id = some t) :
    ((task_stop_reg reg id timeoutMs wid termRace killExit).2 =
      .ok (task_stop t timeoutMs wid termRace killExit)) ∧
    (regIds (task_stop_reg reg id timeoutMs wid termRace killExit).1 =
      regIds reg) ∧
    ((task_stop t timeoutMs wid termRace killExit).result =
      summary (task_stop t timeoutMs wid termRace killExit).task) ∧
    (t.state = .exited →
      task_stop t timeoutMs wid termRace killExit = ⟨t, [], [], summary t⟩) ∧
    (t.state = .running →
      ((task_stop t timeoutMs wid termRace killExit).signalsSent =
        if termRace = .timerWonRunning then ["SIGTERM", "SIGKILL"]
        else ["SIGTERM"]) ∧
      ((task_stop t timeoutMs wid termRace killExit).timersArmed =
        if termRace = .timerWonRunning then [timeoutMs.getD 5000, 1000]
        else [timeoutMs.getD 5000])) := by
  refine ⟨by simp [task_stop_reg, hreg], ?_, ?_, ?_, ?_⟩
  · simp only [task_stop_reg, hreg]
    exact regIds_setTask reg id _ t hreg
  · unfold task_stop
    by_cases h : t.state = .running
    · cases termRace <;> cases killExit <;> simp [h]
    · simp [h]
  · intro h
    simp [task_stop, h]
  · intro h
    cases termRace <;> cases killExit <;> simp [task_stop, h]

/-- Witness for C4: an exited task is answered without signals; a
running task that survives the first race gets `SIGTERM` then
`SIGKILL` with timers 5000 then 1000 ms; the registry-level call
returns `.ok`. -/
theorem stop_spec_witness :
    (task_stop doneTask (some 100) 0 .timerWonRunning none =
      ⟨doneTask, [], [], summary doneTask⟩) ∧
    ((task_stop sampleTask none 3 .timerWonRunning none).signalsSent =
      ["SIGTERM", "SIGKILL"]) ∧
    ((task_stop sampleTask none 3 .timerWonRunning none).timersArmed =
      [5000, 1000]) ∧
    ((task_stop_reg [("t1", sampleTask)] "t1" none 3 .timerWonRunning none).2 =
      .ok (task_stop sampleTask none 3 .timerWonRunning none)) := by
  have h1 := stop_spec [("t2", doneTask)] "t2" doneTask (some 100) 0
    .timerWonRunning none (by decide)
  have h2 := stop_spec [("t1", sampleTask)] "t1" sampleTask none 3
    .timerWonRunning none (by decide)
  refine ⟨h1.2.2.2.1 (by decide), ?_, ?_, h2.1⟩
  · simpa using (h2.2.2.2.2 (by decide)).1
  · simpa using (h2.2.2.2.2 (by decide)).2

/-- C5: `logs` reports the total retained count and the selected
count; with `tail = n` it selects the last `min n total` items (a
suffix, taking precedence over any `offset`); with only `offset` it
selects from that index to the end; with neither it selects all. -/
theorem logs_selection_spec (t : Task) (offset tail : Option Nat)
    (includeTimestamps : Option Bool) :
    ((task_logs t offset tail includeTimestamps).logItemCount =
      t.logs.length) ∧
    ((task_logs t offset tail includeTimestamps).returnedCount =
      (selectLogs t.logs offset tail).length) ∧
    (∀ n, tail = some n →
      selectLogs t.logs offset tail = t.logs.drop (t.logs.length - n) ∧
      (selectLogs t.logs offset tail).length = min n t.logs.length ∧
      (selectLogs t.logs offset tail).IsSuffix t.logs) ∧
    (∀ off, tail = none → offset = some off →
      selectLogs t.logs offset tail = t.logs.drop off) ∧
    (tail = none → offset = none → selectLogs t.logs offset tail = t.logs) := by
  refine ⟨rfl, rfl, ?_, ?_, ?_⟩
  · intro n hn
    subst hn
    refine ⟨rfl, ?_, List.drop_suffix _ _⟩
    simp only [selectLogs, List.length_drop]
    omega
  · intro off hn ho
    subst hn; subst ho
    rfl
  · intro hn ho
    subst hn; subst ho
    rfl

/-- The five retained log items of `logTask`. -/
def fiveItems : List LogItem :=
  [⟨0, .stdout, "a"⟩, ⟨1, .stderr, "b"⟩, ⟨2, .stdout, "c"⟩,
   ⟨3, .stdout, "d"⟩, ⟨4, .stderr, "e"⟩]

/-- A task with five retained log items, for the C5 witness. -/
def logTask : Task :=
  { sampleTask with logs := fiveItems, logBytes := 85 }

/-- Witness for C5: `tail = 2` on five items selects the last two. -/
theorem logs_selection_spec_witness :
    selectLogs logTask.logs (some 3) (some 2) =
      logTask.logs.drop (logTask.logs.length - 2) ∧
    (selectLogs logTask.logs (some 3) (some 2)).length =
      min 2 logTask.logs.length ∧
    (selectLogs logTask.logs (some 3) (some 2)).IsSuffix logTask.logs :=
  (logs_selection_spec logTask (some 3) (some 2) none).2.2.1 2 rfl

/-- C6: `wait` on an already-exited task answers the summary at once,
leaving the task record (in particular its waiter list) untouched; on
a running task with a `timeoutMs` whose timer wins the race it
answers the distinct timeout marker carrying the task's id, state and
pid as they are at that moment. -/
theorem wait_spec (t : Task) (timeoutMs : Option Nat) (wid : Nat)
    (race : WaitRace) :
    (t.state = .exited →
      task_wait t timeoutMs wid race = (t, some (.summary (summary t)))) ∧
    (∀ ms, t.state = .running → timeoutMs = some ms → race = .timedOut →
      task_wait t timeoutMs wid race =
        ({ t with waiters := t.waiters ++ [wid] },
          some (.timeoutMarker t.id t.state t.pid))) := by
  constructor
  · intro h
    simp [task_wait, h]
  · intro ms h hms hr
    subst hms; subst hr
    simp [task_wait, h]

/-- Witness for C6 at an exited and a running concrete task. -/
theorem wait_spec_witness :
    (task_wait doneTask none 9 .timedOut =
      (doneTask, some (.summary (summary doneTask)))) ∧
    (task_wait sampleTask (some 50) 9 .timedOut =
      ({ sampleTask with waiters := sampleTask.waiters ++ [9] },
        some (.timeoutMarker sampleTask.id sampleTask.state sampleTask.pid))) :=
  ⟨(wait_spec doneTask none 9 .timedOut).1 (by decide),
   (wait_spec sampleTask (some 50) 9 .timedOut).2 50 (by decide) rfl rfl⟩

/-- C7: when the spawn yields no pid, `start` fails synchronously with
the launch error and leaves the registry exactly as it was — in
particular a fresh id is absent afterwards just as before. -/
theorem start_failure_spec (reg : Registry) (command : String)
    (args : List String) (cwd : Option String)
    (env : Option (List (String × String))) (name : Option String)
    (maxLogBytes : Option Int) (id : String) (now : Nat) :
    ((task_start reg command args cwd env name maxLogBytes id now none).1 =
      reg) ∧
    ((task_start reg command args cwd env name maxLogBytes id now none).2 =
      .error ("Failed to start process (no pid)")) ∧
    (lookupTask reg id = none →
      lookupTask
        (task_start reg command args cwd env name maxLogBytes id now none).1
        id = none) := by
  refine ⟨rfl, rfl, ?_⟩
  intro h
  simpa [task_start] using h

/-- Witness for C7: a failing start against a one-task registry. -/
theorem start_failure_spec_witness :
    ((task_start [("t1", sampleTask)] "ls" [] none none none none
        ("fresh") 7 none).1 = [("t1", sampleTask)]) ∧
    (lookupTask (task_start [("t1", sampleTask)] "ls" [] none none none none
        ("fresh") 7 none).1 ("fresh") = none) := by
  have h := start_failure_spec [("t1", sampleTask)] "ls" [] none none none
    none ("fresh") 7
  exact ⟨h.1, h.2.2 (by decide)⟩

/-- C8: every id-taking operation fails with the `Task not found`
error on an unregistered id, and `write` on an exited task fails with
`Task is not running` without passing anything to stdin. -/
theorem notfound_notrunning_spec (reg : Registry) (id : String) (t : Task)
    (data sigName : String) (addNewline : Option Bool)
    (writeErr : Option String) (killOk : Bool) (timeoutMs : Option Nat)
    (wid : Nat) (termRace : TermRace)
    (killExit : Option (Option Int × Option String)) (race : WaitRace)
    (offset tail : Option Nat) (its : Option Bool) :
    (lookupTask reg id = none →
      task_status reg id = .error (notFoundMsg id) ∧
      task_logs_reg reg id offset tail its = .error (notFoundMsg id) ∧
      task_write_reg reg id data addNewline writeErr =
        ([], .error (notFoundMsg id)) ∧
      task_signal_reg reg id sigName killOk = .error (notFoundMsg id) ∧
      (task_stop_reg reg id timeoutMs wid termRace killExit).2 =
        .error (notFoundMsg id) ∧
      (task_wait_reg reg id timeoutMs wid race).2 =
        .error (notFoundMsg id)) ∧
    (t.state = .exited →
      task_write t data addNewline writeErr =
        ([], .error ("Task is not running"))) := by
  constructor
  · intro h
    refine ⟨?_, ?_, ?_, ?_, ?_, ?_⟩ <;>
      simp [task_status, task_logs_reg, task_write_reg, task_signal_reg,
        task_stop_reg, task_wait_reg, getTask, Except.map, h]
  · intro h
    simp [task_write, h]

/-- Witness for C8: an empty registry and a concrete exited task. -/
theorem notfound_notrunning_spec_witness :
    task_status [] "zzz" = .error (notFoundMsg ("zzz")) ∧
    task_write doneTask ("ping") (some true) none =
      ([], .error ("Task is not running")) := by
  have h := notfound_notrunning_spec [] "zzz" doneTask ("ping") ("SIGTERM")
    (some true) none true none 0 .timerWonRunning none .timedOut none none none
  exact ⟨(h.1 rfl).1, h.2 (by decide)⟩

/-- C9: `signal` on a registered task that is not running answers the
non-error `not running` result and forwards nothing; on a running task
it forwards the named signal once and answers the delivery flag with
the pid and the signal name. -/
theorem signal_spec (reg : Registry) (id : String) (t : Task)
    (sigName : String) (killOk : Bool) :
    (t.state ≠ .running →
      task_signal t sigName killOk = (.notRunning, [])) ∧
    (t.state = .running →
      task_signal t sigName killOk =
        (.sent killOk t.id t.pid sigName, [sigName])) ∧
    (lookupTask reg id = some t →
      task_signal_reg reg id sigName killOk =
        .ok (task_signal t sigName killOk)) := by
  refine ⟨?_, ?_, ?_⟩
  · intro h
    simp [task_signal, h]
  · intro h
    simp [task_signal, h]
  · intro h
    simp [task_signal_reg, getTask, Except.map, h]

/-- Witness for C9: an exited and a running concrete task. -/
theorem signal_spec_witness :
    task_signal doneTask ("SIGINT") true = (.notRunning, []) ∧
    task_signal sampleTask ("SIGINT") true =
      (.sent true sampleTask.id sampleTask.pid ("SIGINT"), ["SIGINT"]) ∧
    task_signal_reg [("t1", sampleTask)] "t1" "SIGINT" true =
      .ok (task_signal sampleTask ("SIGINT") true) := by
  have h1 := signal_spec [] "x" doneTask ("SIGINT") true
  have h2 := signal_spec [("t1", sampleTask)] "t1" sampleTask ("SIGINT") true
  exact ⟨h1.1 (by decide), h2.2.1 (by decide), h2.2.2 (by decide)⟩

/-- On a `getD false` prune, the keep test coincides with `state =
running` and the removal test with `state = exited`. -/
theorem pruneRemoves_getD_false (includeRunning : Option Bool)
    (h : includeRunning.getD false = false) :
    ((fun p : String × Task => ! pruneRemoves includeRunning p.2) =
      (fun p => decide (p.2.state = TaskState.running))) ∧
    ((fun p : String × Task => pruneRemoves includeRunning p.2) =
      (fun p => decide (p.2.state = TaskState.exited))) := by
  constructor <;> funext p <;> cases hs : p.2.state <;>
    simp [pruneRemoves, h, hs]

/-- C10: `prune` removes and retains complementary counts
(`removed + remaining` is the prior registry size) and sends no
signal; with `includeRunning` unset or false it removes exactly the
exited tasks and keeps every running one registered. -/
theorem prune_spec (reg : Registry) (includeRunning : Option Bool) :
    ((task_prune reg includeRunning).2.removed +
      (task_prune reg includeRunning).2.remaining = reg.length) ∧
    ((task_prune reg includeRunning).2.signalsSent = []) ∧
    (includeRunning.getD false = false →
      ((task_prune reg includeRunning).1 =
        reg.filter (fun p => decide (p.2.state = TaskState.running))) ∧
      ((task_prune reg includeRunning).2.removed =
        reg.countP (fun p => decide (p.2.state = TaskState.exited))) ∧
      (∀ p, p ∈ reg → p.2.state = .running →
        p ∈ (task_prune reg includeRunning).1)) := by
  refine ⟨?_, rfl, ?_⟩
  · simpa [task_prune] using
      countP_add_length_filter_not
        (fun p : String × Task => pruneRemoves includeRunning p.2) reg
  · intro h
    obtain ⟨hkeep, hrem⟩ := pruneRemoves_getD_false includeRunning h
    refine ⟨?_, ?_, ?_⟩
    · simp only [task_prune, hkeep]
    · simp only [task_prune, hrem]
    · intro p hp hs
      simp only [task_prune, hkeep]
      exact List.mem_filter.mpr ⟨hp, by simp [hs]⟩

/-- Witness for C10: prune with `includeRunning` unset on a registry
holding one running and one exited task. -/
theorem prune_spec_witness :
    ((task_prune [("t1", sampleTask), ("t2", doneTask)] none).2.removed +
      (task_prune [("t1", sampleTask), ("t2", doneTask)] none).2.remaining =
        2) ∧
    ("t1", sampleTask) ∈ (task_prune [("t1", sampleTask), ("t2", doneTask)]
        none).1 := by
  have h := prune_spec [("t1", sampleTask), ("t2", doneTask)] none
  exact ⟨h.1, (h.2.2 rfl).2.2 ("t1", sampleTask) (by simp) (by decide)⟩

end TaskRunner
